import Mathlib

/-!
Verification of the discovery / handshake / replication protocol of the
two-player networked pong program (`src/main.py`).  The Python classes
`NetworkManager` and `PongGame` are shallowly embedded: every handler
becomes a pure function from an explicit state to a new state together
with the list of observable effects (adapter calls, outbound messages,
dispatched events) it produces, in the order the Python code produces
them.
-/

namespace Pong

/-- `PongGame._determine_game_owner(my_name, enemy_name)`:
`return my_name < enemy_name` (Python string comparison is the
lexicographic order on code points, which is the order on `String`). -/
def determine_game_owner (my_name enemy_name : String) : Bool :=
  decide (my_name < enemy_name)

/-- C1: for every pair of distinct names, evaluating the role-arbitration
function as (self=a, other=b) on one side and as (self=b, other=a) on the
other yields `true` (Owner) on exactly one side and `false` (Guest) on the
other. -/
theorem C1_role_arbitration_complementary (a b : String) (hne : a ≠ b) :
    (determine_game_owner a b = true ∧ determine_game_owner b a = false) ∨
    (determine_game_owner a b = false ∧ determine_game_owner b a = true) := by
  rcases lt_trichotomy a b with h | h | h
  · exact Or.inl ⟨decide_eq_true h, decide_eq_false (lt_asymm h)⟩
  · exact absurd h hne
  · exact Or.inr ⟨decide_eq_false (lt_asymm h), decide_eq_true h⟩

/-- Concrete instance of C1 at the spec's example pair of names. -/
theorem C1_role_arbitration_complementary_witness :
    ("alice" ≠ "bob") ∧
    ((determine_game_owner "alice" "bob" = true ∧
        determine_game_owner "bob" "alice" = false) ∨
      (determine_game_owner "alice" "bob" = false ∧
        determine_game_owner "bob" "alice" = true)) :=
  ⟨by decide, C1_role_arbitration_complementary "alice" "bob" (by decide)⟩

/-! ### The readiness handshake (C2)

`PongGame.start_synchronization`, `PongGame.complete_synchronization` and
`PongGame.on_sync_complete` only read and write the fields `sync_state`,
`is_synchronized` and `pause` (plus UI text, which is not modelled), so a
coordinator is embedded as just those three fields.  `sync_state` is the
Python string-valued property restricted to the three values the code
assigns. -/

/-- The values of `PongGame.sync_state` ("waiting", "ready", "synchronized"). -/
inductive SState where
  | waiting
  | ready
  | synchronized
deriving DecidableEq, Fintype

/-- The sync-relevant slice of a `PongGame` instance. -/
structure Coord where
  sync_state : SState
  is_synchronized : Bool
  pause : Bool
deriving DecidableEq, Fintype

/-- The two sync messages: the dispatched payloads `{sync_ready: b}` and
`{sync_ack: b}` (the program always sends `True`, but the handler tests the
payload's truthiness, so the payload is kept). -/
inductive SMsg where
  | sync_ready (b : Bool)
  | sync_ack (b : Bool)
deriving DecidableEq, Fintype

/-- The `sync_ready` message actually sent by the program. -/
def readyMsg : SMsg := SMsg.sync_ready true

/-- The `sync_ack` message actually sent by the program. -/
def ackMsg : SMsg := SMsg.sync_ack true

/-- `PongGame.complete_synchronization`: guarded by `if not self.is_synchronized`. -/
def complete_synchronization (c : Coord) : Coord :=
  if c.is_synchronized then c
  else { sync_state := SState.synchronized, is_synchronized := true, pause := false }

/-- `PongGame.start_synchronization`: sets `sync_state = "ready"`,
`pause = True` and sends `{"sync_ready": True}`. -/
def start_synchronization (c : Coord) : Coord × List SMsg :=
  ({ c with sync_state := SState.ready, pause := true }, [readyMsg])

/-- `PongGame.on_sync_complete`: note the two consecutive `if`s (not
`elif`) in the `sync_ready` branch, so a side still in `"waiting"` first
responds with its own `sync_ready` and then immediately also acknowledges.
Returns the new state and the messages sent, in sending order. -/
def on_sync_complete (c : Coord) (m : SMsg) : Coord × List SMsg :=
  match m with
  | SMsg.sync_ready b =>
    if b then
      let first : Coord × List SMsg :=
        if c.sync_state = SState.waiting then
          ({ c with sync_state := SState.ready }, [readyMsg])
        else (c, [])
      let c1 := first.1
      if c1.sync_state = SState.ready then
        (complete_synchronization c1, first.2 ++ [ackMsg])
      else (c1, first.2)
    else (c, [])
  | SMsg.sync_ack b =>
    if b then
      if c.sync_state = SState.ready then (complete_synchronization c, [])
      else (c, [])
    else (c, [])

/-- Two coordinators plus the two in-flight FIFO channels of the lossless
in-memory network: `qab` carries messages sent by `a` and not yet received
by `b`, `qba` the converse. -/
structure Sys where
  a : Coord
  b : Coord
  qab : List SMsg
  qba : List SMsg
deriving DecidableEq

/-- Scheduler actions: deliver the oldest in-flight message to a side
(a no-op when none is in flight), or run a side's
`start_synchronization`. -/
inductive Act where
  | deliverA
  | deliverB
  | startA
  | startB
deriving DecidableEq

/-- One scheduler step of the two-coordinator system. -/
def step (s : Sys) (act : Act) : Sys :=
  match act with
  | Act.startA =>
    let r := start_synchronization s.a
    { s with a := r.1, qab := s.qab ++ r.2 }
  | Act.startB =>
    let r := start_synchronization s.b
    { s with b := r.1, qba := s.qba ++ r.2 }
  | Act.deliverA =>
    match s.qba with
    | [] => s
    | m :: rest =>
      let r := on_sync_complete s.a m
      { s with a := r.1, qba := rest, qab := s.qab ++ r.2 }
  | Act.deliverB =>
    match s.qab with
    | [] => s
    | m :: rest =>
      let r := on_sync_complete s.b m
      { s with b := r.1, qab := rest, qba := s.qba ++ r.2 }

/-- Run a whole schedule. -/
def runSched (s : Sys) (sched : List Act) : Sys :=
  sched.foldl step s

theorem osc_mono (c : Coord) (m : SMsg) (h : c.is_synchronized = true) :
    (on_sync_complete c m).1.is_synchronized = true := by
  revert c m; decide

theorem osc_keeps_ss_sync (c : Coord) (m : SMsg)
    (h : c.sync_state = SState.synchronized → c.is_synchronized = true) :
    (on_sync_complete c m).1.sync_state = SState.synchronized →
      (on_sync_complete c m).1.is_synchronized = true := by
  revert c m; decide

theorem osc_not_waiting (c : Coord) (m : SMsg) (h : c.sync_state ≠ SState.waiting) :
    (on_sync_complete c m).1.sync_state ≠ SState.waiting := by
  revert c m; decide

theorem osc_noop_of_not_synced (c : Coord) (m : SMsg)
    (h2 : c.sync_state = SState.synchronized → c.is_synchronized = true)
    (hn : (on_sync_complete c m).1.is_synchronized = false) :
    on_sync_complete c m = (c, []) ∧ m ≠ readyMsg ∧
      (m = ackMsg → c.sync_state ≠ SState.ready) := by
  revert c m; decide

theorem osc_noop_of_not_synced_ready (c : Coord) (m : SMsg)
    (h1 : c.sync_state ≠ SState.waiting)
    (h2 : c.sync_state = SState.synchronized → c.is_synchronized = true)
    (hn : (on_sync_complete c m).1.is_synchronized = false) :
    on_sync_complete c m = (c, []) ∧ m ≠ readyMsg ∧ m ≠ ackMsg := by
  revert c m; decide

theorem osc_sync_emits_ack (c : Coord) (m : SMsg)
    (h0 : c.is_synchronized = false)
    (h1 : (on_sync_complete c m).1.is_synchronized = true)
    (hm : m ≠ ackMsg) :
    ackMsg ∈ (on_sync_complete c m).2 := by
  revert c m; decide

theorem osc_ack_out_synced (c : Coord) (m : SMsg)
    (h : ackMsg ∈ (on_sync_complete c m).2) :
    (on_sync_complete c m).1.is_synchronized = true := by
  revert c m; decide

/-- Inductive invariant of the handshake system (for start states in which
side `a` has already run `start_synchronization`): side `b` is either
synchronized or has a sync-causing message in flight towards it; side `a`
is synchronized, or has one in flight, or is still waiting on `b`'s
progress; an `ack` in flight certifies that its sender is synchronized. -/
def SyncInv (s : Sys) : Prop :=
  (s.a.sync_state ≠ SState.waiting)
  ∧ (s.a.sync_state = SState.synchronized → s.a.is_synchronized = true)
  ∧ (s.b.sync_state = SState.synchronized → s.b.is_synchronized = true)
  ∧ (s.b.is_synchronized = true ∨ readyMsg ∈ s.qab ∨
      (s.b.sync_state = SState.ready ∧ ackMsg ∈ s.qab))
  ∧ (s.a.is_synchronized = false →
      (readyMsg ∈ s.qba ∨ (s.a.sync_state = SState.ready ∧ ackMsg ∈ s.qba) ∨
        s.b.is_synchronized = false))
  ∧ (ackMsg ∈ s.qab → s.a.is_synchronized = true)
  ∧ (ackMsg ∈ s.qba → s.b.is_synchronized = true)

theorem syncInv_step (s : Sys) (act : Act) (h : SyncInv s) : SyncInv (step s act) := by
  obtain ⟨a, b, qab, qba⟩ := s
  obtain ⟨h1, h2a, h2b, h3, h4, h6, h7⟩ := h
  dsimp only at h1 h2a h2b h3 h4 h6 h7
  cases act with
  | startA =>
    dsimp only [step, start_synchronization, SyncInv]
    refine ⟨by simp, by simp, h2b, ?_, ?_, ?_, h7⟩
    · rcases h3 with hb | hR | ⟨hss, hK⟩
      · exact Or.inl hb
      · exact Or.inr (Or.inl (List.mem_append_left _ hR))
      · exact Or.inr (Or.inr ⟨hss, List.mem_append_left _ hK⟩)
    · intro ha
      rcases h4 ha with hR | ⟨hss, hK⟩ | hb
      · exact Or.inl hR
      · exact Or.inr (Or.inl ⟨rfl, hK⟩)
      · exact Or.inr (Or.inr hb)
    · intro hK
      rcases List.mem_append.mp hK with hm | hm
      · exact h6 hm
      · simp [readyMsg, ackMsg] at hm
  | startB =>
    dsimp only [step, start_synchronization, SyncInv]
    refine ⟨h1, h2a, ?_, ?_, ?_, h6, ?_⟩
    · intro hx; simp at hx
    · rcases h3 with hb | hR | ⟨hss, hK⟩
      · exact Or.inl hb
      · exact Or.inr (Or.inl hR)
      · exact Or.inr (Or.inr ⟨rfl, hK⟩)
    · intro ha
      exact Or.inl (List.mem_append_right _ (by simp))
    · intro hK
      rcases List.mem_append.mp hK with hm | hm
      · exact h7 hm
      · simp [readyMsg, ackMsg] at hm
  | deliverA =>
    cases qba with
    | nil => exact ⟨h1, h2a, h2b, h3, h4, h6, h7⟩
    | cons m rest =>
      dsimp only [step, SyncInv]
      refine ⟨osc_not_waiting a m h1, osc_keeps_ss_sync a m h2a, h2b, ?_, ?_, ?_, ?_⟩
      · rcases h3 with hb | hR | ⟨hss, hK⟩
        · exact Or.inl hb
        · exact Or.inr (Or.inl (List.mem_append_left _ hR))
        · exact Or.inr (Or.inr ⟨hss, List.mem_append_left _ hK⟩)
      · intro ha'
        obtain ⟨heq, hmr, hmk⟩ := osc_noop_of_not_synced_ready a m h1 h2a ha'
        have ha : a.is_synchronized = false := by rw [heq] at ha'; exact ha'
        rcases h4 ha with hR | ⟨hss, hK⟩ | hb
        · rcases List.mem_cons.mp hR with he | ht
          · exact absurd he.symm hmr
          · exact Or.inl ht
        · rcases List.mem_cons.mp hK with he | ht
          · exact absurd he.symm hmk
          · refine Or.inr (Or.inl ⟨?_, ht⟩)
            rw [heq]
            exact hss
        · exact Or.inr (Or.inr hb)
      · intro hK
        rcases List.mem_append.mp hK with hm | hm
        · exact osc_mono a m (h6 hm)
        · exact osc_ack_out_synced a m hm
      · intro hK
        exact h7 (List.mem_cons_of_mem _ hK)
  | deliverB =>
    cases qab with
    | nil => exact ⟨h1, h2a, h2b, h3, h4, h6, h7⟩
    | cons m rest =>
      dsimp only [step, SyncInv]
      refine ⟨h1, h2a, osc_keeps_ss_sync b m h2b, ?_, ?_, ?_, ?_⟩
      · cases hval : (on_sync_complete b m).1.is_synchronized with
        | true => exact Or.inl rfl
        | false =>
          obtain ⟨heq, hmr, hmk⟩ := osc_noop_of_not_synced b m h2b hval
          have hbsy : b.is_synchronized = false := by rw [heq] at hval; exact hval
          rcases h3 with hb | hR | ⟨hss, hK⟩
          · simp [hbsy] at hb
          · rcases List.mem_cons.mp hR with he | ht
            · exact absurd he.symm hmr
            · exact Or.inr (Or.inl ht)
          · rcases List.mem_cons.mp hK with he | ht
            · exact absurd hss (hmk he.symm)
            · refine Or.inr (Or.inr ⟨?_, ht⟩)
              rw [heq]
              exact hss
      · intro ha
        rcases h4 ha with hR | ⟨hss, hK⟩ | hb
        · exact Or.inl (List.mem_append_left _ hR)
        · exact Or.inr (Or.inl ⟨hss, List.mem_append_left _ hK⟩)
        · cases hval : (on_sync_complete b m).1.is_synchronized with
          | false => exact Or.inr (Or.inr rfl)
          | true =>
            have hmk : m ≠ ackMsg := by
              intro he
              have hKhead : ackMsg ∈ m :: rest := by rw [he]; exact List.mem_cons_self _ _
              have := h6 hKhead
              simp [ha] at this
            have hKout := osc_sync_emits_ack b m hb hval hmk
            have hssA : a.sync_state = SState.ready := by
              cases hcs : a.sync_state with
              | waiting => exact absurd hcs h1
              | ready => rfl
              | synchronized =>
                have := h2a hcs
                simp [ha] at this
            exact Or.inr (Or.inl ⟨hssA, List.mem_append_right _ hKout⟩)
      · intro hK
        exact h6 (List.mem_cons_of_mem _ hK)
      · intro hK
        rcases List.mem_append.mp hK with hm | hm
        · exact osc_mono b m (h7 hm)
        · exact osc_ack_out_synced b m hm

theorem syncInv_run (s : Sys) (sched : List Act) (h : SyncInv s) :
    SyncInv (runSched s sched) := by
  induction sched generalizing s with
  | nil => exact h
  | cons hd t ih => exact ih _ (syncInv_step s hd h)

theorem syncInv_drained (s : Sys) (h : SyncInv s) (hab : s.qab = [])
    (hba : s.qba = []) :
    s.a.is_synchronized = true ∧ s.b.is_synchronized = true := by
  obtain ⟨h1, h2a, h2b, h3, h4, h6, h7⟩ := h
  have hb : s.b.is_synchronized = true := by
    rcases h3 with hb | hR | ⟨hss, hK⟩
    · exact hb
    · rw [hab] at hR; cases hR
    · rw [hab] at hK; cases hK
  refine ⟨?_, hb⟩
  cases hval : s.a.is_synchronized with
  | true => rfl
  | false =>
    rcases h4 hval with hR | ⟨hss, hK⟩ | hbf
    · rw [hba] at hR; cases hR
    · rw [hba] at hK; cases hK
    · simp [hb] at hbf

/-- Exchange the two sides of the system (both run the same code, so the
system is symmetric under this swap). -/
def swapSys (s : Sys) : Sys :=
  { a := s.b, b := s.a, qab := s.qba, qba := s.qab }

/-- The action acting on the swapped side. -/
def mirror : Act → Act
  | Act.deliverA => Act.deliverB
  | Act.deliverB => Act.deliverA
  | Act.startA => Act.startB
  | Act.startB => Act.startA

theorem mirror_mirror (act : Act) : mirror (mirror act) = act := by
  cases act <;> rfl

theorem step_swap (s : Sys) (act : Act) :
    step (swapSys s) (mirror act) = swapSys (step s act) := by
  obtain ⟨a, b, qab, qba⟩ := s
  cases act with
  | startA => rfl
  | startB => rfl
  | deliverA => cases qba <;> rfl
  | deliverB => cases qab <;> rfl

theorem runSched_swap (s : Sys) (sched : List Act) :
    runSched (swapSys s) (sched.map mirror) = swapSys (runSched s sched) := by
  induction sched generalizing s with
  | nil => rfl
  | cons hd t ih =>
    show runSched (step (swapSys s) (mirror hd)) (t.map mirror) = _
    rw [step_swap]
    exact ih (step s hd)

theorem map_mirror_map_mirror (l : List Act) : (l.map mirror).map mirror = l := by
  induction l with
  | nil => rfl
  | cons hd t ih => simp [mirror_mirror, ih]

/-- A `PongGame` that has not yet started synchronizing: `__init__` sets
`sync_state = "waiting"`, `is_synchronized = False`, `pause = True`. -/
def waitingCoord : Coord :=
  { sync_state := SState.waiting, is_synchronized := false, pause := true }

/-- A `PongGame` just after its own `start_synchronization`. -/
def readyCoord : Coord :=
  { sync_state := SState.ready, is_synchronized := false, pause := true }

/-- Side `a` sent its `sync_ready` first; `b` has not yet started. -/
def initAfirst : Sys := { a := readyCoord, b := waitingCoord, qab := [readyMsg], qba := [] }

/-- Side `b` sent its `sync_ready` first; `a` has not yet started. -/
def initBfirst : Sys := { a := waitingCoord, b := readyCoord, qab := [], qba := [readyMsg] }

/-- The simultaneous case: both sides sent `sync_ready` before either
received the other's. -/
def initSimul : Sys := { a := readyCoord, b := readyCoord, qab := [readyMsg], qba := [readyMsg] }

theorem syncInv_initAfirst : SyncInv initAfirst :=
  ⟨by decide, by decide, by decide, by decide, by decide, by decide, by decide⟩

theorem syncInv_initSimul : SyncInv initSimul :=
  ⟨by decide, by decide, by decide, by decide, by decide, by decide, by decide⟩

/-- C2: for every delivery/start schedule of the lossless channel, if the
run ends with no message left in flight (losslessness: everything sent was
delivered) then both coordinators have `is_synchronized = True`, from all
three start configurations: `a`'s ready first, `b`'s ready first, and both
sent before either receives. -/
theorem C2_handshake_convergence (sched : List Act) :
    (((runSched initAfirst sched).qab = [] ∧ (runSched initAfirst sched).qba = []) →
      (runSched initAfirst sched).a.is_synchronized = true ∧
        (runSched initAfirst sched).b.is_synchronized = true)
    ∧ (((runSched initBfirst sched).qab = [] ∧ (runSched initBfirst sched).qba = []) →
      (runSched initBfirst sched).a.is_synchronized = true ∧
        (runSched initBfirst sched).b.is_synchronized = true)
    ∧ (((runSched initSimul sched).qab = [] ∧ (runSched initSimul sched).qba = []) →
      (runSched initSimul sched).a.is_synchronized = true ∧
        (runSched initSimul sched).b.is_synchronized = true) := by
  refine ⟨?_, ?_, ?_⟩
  · intro hd
    exact syncInv_drained _ (syncInv_run _ sched syncInv_initAfirst) hd.1 hd.2
  · intro hd
    have hswap : runSched initBfirst sched = swapSys (runSched initAfirst (sched.map mirror)) := by
      have h1 : initBfirst = swapSys initAfirst := rfl
      rw [h1]
      have := runSched_swap initAfirst (sched.map mirror)
      rw [map_mirror_map_mirror] at this
      exact this
    rw [hswap] at hd ⊢
    have hres := syncInv_drained _ (syncInv_run _ (sched.map mirror) syncInv_initAfirst)
      hd.2 hd.1
    exact ⟨hres.2, hres.1⟩
  · intro hd
    exact syncInv_drained _ (syncInv_run _ sched syncInv_initSimul) hd.1 hd.2

/-- A concrete draining schedule for all three start configurations. -/
def schedEx : List Act :=
  [Act.deliverA, Act.deliverB, Act.deliverA, Act.deliverB, Act.deliverA, Act.deliverB]

/-- Concrete instance of C2: under the schedule `schedEx` all three start
configurations drain the channel and end with both sides synchronized. -/
theorem C2_handshake_convergence_witness :
    ((runSched initAfirst schedEx).a.is_synchronized = true ∧
      (runSched initAfirst schedEx).b.is_synchronized = true)
    ∧ ((runSched initBfirst schedEx).a.is_synchronized = true ∧
      (runSched initBfirst schedEx).b.is_synchronized = true)
    ∧ ((runSched initSimul schedEx).a.is_synchronized = true ∧
      (runSched initSimul schedEx).b.is_synchronized = true) :=
  ⟨(C2_handshake_convergence schedEx).1 (by decide),
    (C2_handshake_convergence schedEx).2.1 (by decide),
    (C2_handshake_convergence schedEx).2.2 (by decide)⟩

/-! ### Peer registry and transport adapter (C3, C8)

`NetworkManager.update_opponent_ip` is in `src/main.py`.  The transport
adapter primitives it calls (`udp._encryption.update_peer_keys`,
`udp.has_peer`, `udp.add_peer`) live in the external `include.udp`
library, so their state is modelled from the spec. -/

/-- A network address `(host, port)`. -/
abbrev Addr := String × Nat

/-- Python truthiness of an optional string (`None` and `""` are falsy). -/
def pyTruthy : Option String → Bool
  | none => false
  | some s => decide (s ≠ "")

/-- Python `x or y` on optional strings: the first operand if truthy,
otherwise the second. -/
def pyOr (x y : Option String) : Option String :=
  if pyTruthy x then x else y

/-- Modelled from the spec: the Transport Adapter's observable state, a
key store (`updatePeerKeys(address, encKey, signKey)`) plus the set of
registered peers (`registerPeer(address)` / `hasPeer(address)`), the peer
list kept in registration order. -/
structure UdpState where
  peer_keys : Addr → Option (String × String)
  peers : List Addr

/-- Modelled from the spec: `updatePeerKeys` installs (or overwrites) the
keys stored for an address. -/
def update_peer_keys (u : UdpState) (addr : Addr) (enc sign : String) : UdpState :=
  { u with peer_keys := fun x => if x = addr then some (enc, sign) else u.peer_keys x }

/-- Modelled from the spec: `hasPeer`. -/
def has_peer (u : UdpState) (addr : Addr) : Bool :=
  decide (addr ∈ u.peers)

/-- Modelled from the spec: `registerPeer` appends the address to the set
of known peers. -/
def add_peer (u : UdpState) (addr : Addr) : UdpState :=
  { u with peers := u.peers ++ [addr] }

/-- The calls `update_opponent_ip` makes into the transport adapter, in
call order. -/
inductive AdapterCall where
  | updatePeerKeys (addr : Addr) (enc sign : String)
  | addPeer (addr : Addr)
deriving DecidableEq

/-- The `NetworkManager` state touched by opponent handling:
`self.addr_opponent` plus the adapter state. -/
structure NetState where
  udp : UdpState
  addr_opponent : Option Addr

/-- `NetworkManager.update_opponent_ip(addr, enc_key=None, sign_key=None)`:
stores the opponent address; installs keys only when BOTH `enc_key` and
`sign_key` are truthy (otherwise it just logs a warning); then registers
the address as a peer unless it is already known.  Returns the new state
and the adapter calls made, in order. -/
def update_opponent_ip (n : NetState) (addr : Addr) (enc_key sign_key : Option String) :
    NetState × List AdapterCall :=
  let n1 : NetState := { n with addr_opponent := some addr }
  let installed := pyTruthy enc_key && pyTruthy sign_key
  let n2 : NetState :=
    if installed then
      { n1 with udp := update_peer_keys n1.udp addr (enc_key.getD "") (sign_key.getD "") }
    else n1
  let t1 : List AdapterCall :=
    if installed then [AdapterCall.updatePeerKeys addr (enc_key.getD "") (sign_key.getD "")]
    else []
  if has_peer n2.udp addr then (n2, t1)
  else ({ n2 with udp := add_peer n2.udp addr }, t1 ++ [AdapterCall.addPeer addr])

/-- An empty adapter / registry state (fresh `NetworkManager`). -/
def netEx0 : NetState :=
  { udp := { peer_keys := fun _ => none, peers := [] }, addr_opponent := none }

/-- A concrete opponent address. -/
def addrEx : Addr := ("10.0.0.5", 3000)

/-- Counterexample to C3 as stated: a call to `update_opponent_ip` whose
`sign_key` is `None` (as happens for any discovery/init message without a
`sign_key` field) registers the address as a known peer while never
installing any keys for it: the call trace is just `addPeer`, and the
adapter holds no keys for the address afterwards. -/
theorem C3_counterexample :
    (update_opponent_ip netEx0 addrEx (some "enc-material") none).2 =
      [AdapterCall.addPeer addrEx]
    ∧ (update_opponent_ip netEx0 addrEx (some "enc-material") none).1.udp.peer_keys addrEx
        = none := by
  constructor <;> rfl

/-- C3 amended: in every call that supplies truthy encryption AND signature
keys, the key installation happens, and it precedes any peer registration:
the call trace starts with `updatePeerKeys`, with `addPeer` only after it. -/
theorem C3_keys_installed_before_registration (n : NetState) (addr : Addr)
    (enc_key sign_key : Option String)
    (he : pyTruthy enc_key = true) (hs : pyTruthy sign_key = true) :
    (update_opponent_ip n addr enc_key sign_key).2 =
        [AdapterCall.updatePeerKeys addr (enc_key.getD "") (sign_key.getD "")]
    ∨ (update_opponent_ip n addr enc_key sign_key).2 =
        [AdapterCall.updatePeerKeys addr (enc_key.getD "") (sign_key.getD ""),
          AdapterCall.addPeer addr] := by
  unfold update_opponent_ip
  rw [he, hs]
  simp only [Bool.and_self]
  split
  next => split <;> simp
  next h => exact absurd trivial h

/-- Concrete instance of the amended C3 on a fresh registry. -/
theorem C3_keys_installed_before_registration_witness :
    (pyTruthy (some "enc-material") = true ∧ pyTruthy (some "sign-material") = true)
    ∧ ((update_opponent_ip netEx0 addrEx (some "enc-material") (some "sign-material")).2 =
        [AdapterCall.updatePeerKeys addrEx "enc-material" "sign-material"]
      ∨ (update_opponent_ip netEx0 addrEx (some "enc-material") (some "sign-material")).2 =
        [AdapterCall.updatePeerKeys addrEx "enc-material" "sign-material",
          AdapterCall.addPeer addrEx]) :=
  ⟨⟨by decide, by decide⟩,
    C3_keys_installed_before_registration netEx0 addrEx (some "enc-material")
      (some "sign-material") (by decide) (by decide)⟩

/-- C8: calling `update_opponent_ip` a second time with the identical
address and keys leaves the registry and adapter state exactly as after
the first call; the second call performs no `addPeer` registration, and
(when the keys are truthy) still performs the key update. -/
theorem C8_set_opponent_idempotent (n : NetState) (a : Addr) (e s : Option String) :
    (update_opponent_ip (update_opponent_ip n a e s).1 a e s).1 = (update_opponent_ip n a e s).1
    ∧ AdapterCall.addPeer a ∉ (update_opponent_ip (update_opponent_ip n a e s).1 a e s).2
    ∧ ((pyTruthy e && pyTruthy s) = true →
        AdapterCall.updatePeerKeys a (e.getD "") (s.getD "")
          ∈ (update_opponent_ip (update_opponent_ip n a e s).1 a e s).2) := by
  obtain ⟨⟨pk, peers⟩, aop⟩ := n
  by_cases hi : (pyTruthy e && pyTruthy s) = true <;>
    by_cases hp : a ∈ peers <;>
      simp [update_opponent_ip, update_peer_keys, add_peer, has_peer, hi, hp]
  all_goals
    funext x
    by_cases hx : x = a <;> simp [hx]

/-- Concrete instance of C8 on a fresh registry with truthy keys. -/
theorem C8_set_opponent_idempotent_witness :
    (update_opponent_ip
        (update_opponent_ip netEx0 addrEx (some "enc-material") (some "sign-material")).1
        addrEx (some "enc-material") (some "sign-material")).1
      = (update_opponent_ip netEx0 addrEx (some "enc-material") (some "sign-material")).1
    ∧ AdapterCall.addPeer addrEx
        ∉ (update_opponent_ip
            (update_opponent_ip netEx0 addrEx (some "enc-material") (some "sign-material")).1
            addrEx (some "enc-material") (some "sign-material")).2
    ∧ ((pyTruthy (some "enc-material") && pyTruthy (some "sign-material")) = true →
        AdapterCall.updatePeerKeys addrEx "enc-material" "sign-material"
          ∈ (update_opponent_ip
              (update_opponent_ip netEx0 addrEx (some "enc-material") (some "sign-material")).1
              addrEx (some "enc-material") (some "sign-material")).2) :=
  C8_set_opponent_idempotent netEx0 addrEx (some "enc-material") (some "sign-material")

/-! ### The game-state handlers of `PongGame` (C4, C6, C7, C10)

The handlers `on_game_status_update`, `on_score_update`,
`on_game_data_update` and `check_player_win` only assign and compare the
positions they receive, so positions and velocities are embedded as plain
coordinate lists; scores are integers.  `NetworkManager.start_search_for_opponent`
(restarting multicast discovery) is modelled as setting a discovery flag,
and the registry's `addr_opponent` is carried in the game state so that
its (non-)clearing is observable. -/

/-- A position or velocity value as carried in a replication message. -/
abbrev Pos := List Int

/-- The two paddle widgets `self.player1` / `self.player2` (`self.me`
holds one of them, or none before connection). -/
inductive PlayerId where
  | player1
  | player2
deriving DecidableEq

/-- The `PongGame` state touched by the replication-channel handlers. -/
structure GameState where
  score_pl1 : Int
  score_pl2 : Int
  pause : Bool
  game_over : Bool
  is_connected : Bool
  is_synchronized : Bool
  sync_state : SState
  end_game_text : String
  game_owner : Bool
  me : Option PlayerId
  enemy_pos : Pos
  ball_pos : Pos
  ball_velocity : Pos
  addr_opponent : Option Addr
  discovery_active : Bool
deriving DecidableEq

/-- `NetworkManager.start_search_for_opponent` as seen from the game
state: multicast discovery becomes active again; nothing else (in
particular not `addr_opponent`) is touched. -/
def start_search_for_opponent (g : GameState) : GameState :=
  { g with discovery_active := true }

/-- The single-key payloads dispatched to `on_game_status_update`
(`_handle_udp_data` dispatches `{key: value}` for each key, so the
`winner` companion key of a `game_over` message arrives separately and
`data.get("winner")` is `None` in this handler). -/
inductive StatusMsg where
  | reset_scores (v : Bool)
  | game_close (v : Bool)
  | game_over_msg (v : Bool)
  | pause_msg (v : Bool)
  | win_size (v : Pos)
deriving DecidableEq

/-- `PongGame.on_game_status_update`. -/
def on_game_status_update (g : GameState) (m : StatusMsg) : GameState :=
  match m with
  | StatusMsg.reset_scores _ =>
    { g with score_pl1 := 0, score_pl2 := 0, pause := false, game_over := false,
             end_game_text := "", is_synchronized := true }
  | StatusMsg.game_close _ =>
    start_search_for_opponent
      { g with score_pl1 := 0, score_pl2 := 0, pause := true, is_connected := false,
               game_over := false, is_synchronized := false, sync_state := SState.waiting,
               end_game_text := "Enemy left - Searching..." }
  | StatusMsg.game_over_msg _ =>
    -- `winner = data.get("winner")` is `None` for the dispatched
    -- single-key payload, so neither winner branch matches.
    { g with game_over := true, pause := true, end_game_text := "You lost" }
  | StatusMsg.pause_msg b => { g with pause := b }
  | StatusMsg.win_size _ => g

/-- A connected, running game session with a registered opponent. -/
def gameEx : GameState :=
  { score_pl1 := 3, score_pl2 := 5, pause := false, game_over := false,
    is_connected := true, is_synchronized := true, sync_state := SState.synchronized,
    end_game_text := "", game_owner := true, me := some PlayerId.player1,
    enemy_pos := [10, 20], ball_pos := [400, 300], ball_velocity := [6, 0],
    addr_opponent := some addrEx, discovery_active := false }

/-- Counterexample to C4 as stated: on receiving the opponent-left notice
(`game_close`) in a connected state, scores are zeroed, the connection is
dropped and discovery restarts, but the stored opponent address is NOT
cleared — it still holds the old opponent. -/
theorem C4_counterexample :
    (on_game_status_update gameEx (StatusMsg.game_close true)).score_pl1 = 0
    ∧ (on_game_status_update gameEx (StatusMsg.game_close true)).score_pl2 = 0
    ∧ (on_game_status_update gameEx (StatusMsg.game_close true)).is_connected = false
    ∧ (on_game_status_update gameEx (StatusMsg.game_close true)).discovery_active = true
    ∧ (on_game_status_update gameEx (StatusMsg.game_close true)).addr_opponent = some addrEx
    ∧ some addrEx ≠ (none : Option Addr) := by
  refine ⟨rfl, rfl, rfl, rfl, rfl, by decide⟩

/-- C4 amended: receiving `game_close` while connected zeroes both scores,
pauses, drops the connection and synchronization, re-enters the searching
state (`sync_state = "waiting"`) and restarts discovery; the stored
opponent address is left unchanged (not cleared). -/
theorem C4_opponent_left_resets (g : GameState) (v : Bool) (hc : g.is_connected = true) :
    (on_game_status_update g (StatusMsg.game_close v)).score_pl1 = 0
    ∧ (on_game_status_update g (StatusMsg.game_close v)).score_pl2 = 0
    ∧ (on_game_status_update g (StatusMsg.game_close v)).pause = true
    ∧ (on_game_status_update g (StatusMsg.game_close v)).is_connected = false
    ∧ (on_game_status_update g (StatusMsg.game_close v)).game_over = false
    ∧ (on_game_status_update g (StatusMsg.game_close v)).is_synchronized = false
    ∧ (on_game_status_update g (StatusMsg.game_close v)).sync_state = SState.waiting
    ∧ (on_game_status_update g (StatusMsg.game_close v)).discovery_active = true
    ∧ (on_game_status_update g (StatusMsg.game_close v)).addr_opponent = g.addr_opponent :=
  ⟨rfl, rfl, rfl, rfl, rfl, rfl, rfl, rfl, rfl⟩

/-- Concrete instance of the amended C4 on the running session `gameEx`. -/
theorem C4_opponent_left_resets_witness :
    gameEx.is_connected = true
    ∧ ((on_game_status_update gameEx (StatusMsg.game_close true)).score_pl1 = 0
      ∧ (on_game_status_update gameEx (StatusMsg.game_close true)).score_pl2 = 0
      ∧ (on_game_status_update gameEx (StatusMsg.game_close true)).pause = true
      ∧ (on_game_status_update gameEx (StatusMsg.game_close true)).is_connected = false
      ∧ (on_game_status_update gameEx (StatusMsg.game_close true)).game_over = false
      ∧ (on_game_status_update gameEx (StatusMsg.game_close true)).is_synchronized = false
      ∧ (on_game_status_update gameEx (StatusMsg.game_close true)).sync_state = SState.waiting
      ∧ (on_game_status_update gameEx (StatusMsg.game_close true)).discovery_active = true
      ∧ (on_game_status_update gameEx (StatusMsg.game_close true)).addr_opponent
          = gameEx.addr_opponent) :=
  ⟨rfl, C4_opponent_left_resets gameEx true rfl⟩

/-- C10: receiving a `reset_scores` message, in any state whatsoever,
zeroes both scores, clears game-over, clears pause, and unconditionally
marks the session as synchronized (`is_synchronized = True`), even if it
never was. -/
theorem C10_reset_scores_unconditional (g : GameState) (v : Bool) :
    (on_game_status_update g (StatusMsg.reset_scores v)).score_pl1 = 0
    ∧ (on_game_status_update g (StatusMsg.reset_scores v)).score_pl2 = 0
    ∧ (on_game_status_update g (StatusMsg.reset_scores v)).game_over = false
    ∧ (on_game_status_update g (StatusMsg.reset_scores v)).pause = false
    ∧ (on_game_status_update g (StatusMsg.reset_scores v)).is_synchronized = true :=
  ⟨rfl, rfl, rfl, rfl, rfl⟩

/-- `POINTS_TO_WIN = 10`. -/
def POINTS_TO_WIN : Int := 10

/-- The score a `PongPaddle` widget currently shows. -/
def playerScore (g : GameState) : PlayerId → Int
  | PlayerId.player1 => g.score_pl1
  | PlayerId.player2 => g.score_pl2

/-- `self.playerN.score = v`. -/
def setPlayerScore (g : GameState) (p : PlayerId) (v : Int) : GameState :=
  match p with
  | PlayerId.player1 => { g with score_pl1 := v }
  | PlayerId.player2 => { g with score_pl2 := v }

/-- Outbound replication messages emitted by `check_player_win`. -/
inductive OutMsg where
  | game_over_out (winner : PlayerId)
deriving DecidableEq

/-- `PongGame.check_player_win(player)`: at `score >= POINTS_TO_WIN` sets
`game_over` and `pause`, picks the outcome text by comparing the player to
`self.me`, and (when we are the connected owner and the winner is our own
paddle) notifies the opponent. -/
def check_player_win (g : GameState) (p : PlayerId) : GameState × List OutMsg :=
  if POINTS_TO_WIN ≤ playerScore g p then
    let g1 := { g with game_over := true, pause := true }
    if g1.me = some p then
      let g2 := { g1 with end_game_text := "You won!!!" }
      if g2.is_connected && g2.game_owner then (g2, [OutMsg.game_over_out p])
      else (g2, [])
    else ({ g1 with end_game_text := "You lost" }, [])
  else (g, [])

/-- The single-key payloads dispatched to `on_score_update`. -/
inductive ScoreMsg where
  | score_pl1 (v : Int)
  | score_pl2 (v : Int)
deriving DecidableEq

/-- Build the score message for a given paddle. -/
def mkScoreMsg : PlayerId → Int → ScoreMsg
  | PlayerId.player1, v => ScoreMsg.score_pl1 v
  | PlayerId.player2, v => ScoreMsg.score_pl2 v

/-- `PongGame.on_score_update`: overwrite the named paddle's score with
the received value, then re-evaluate the win condition for that paddle. -/
def on_score_update (g : GameState) (m : ScoreMsg) : GameState × List OutMsg :=
  match m with
  | ScoreMsg.score_pl1 v => check_player_win (setPlayerScore g PlayerId.player1 v) PlayerId.player1
  | ScoreMsg.score_pl2 v => check_player_win (setPlayerScore g PlayerId.player2 v) PlayerId.player2

theorem check_player_win_at_threshold (g : GameState) (p : PlayerId)
    (h : POINTS_TO_WIN ≤ playerScore g p) :
    (check_player_win g p).1.game_over = true := by
  unfold check_player_win
  rw [if_pos h]
  dsimp only
  split
  · split <;> rfl
  · rfl

theorem check_player_win_below_threshold (g : GameState) (p : PlayerId)
    (h : ¬ POINTS_TO_WIN ≤ playerScore g p) :
    check_player_win g p = (g, []) := by
  unfold check_player_win
  rw [if_neg h]

theorem playerScore_setPlayerScore (g : GameState) (p : PlayerId) (v : Int) :
    playerScore (setPlayerScore g p v) p = v := by
  cases p <;> rfl

theorem game_over_setPlayerScore (g : GameState) (p : PlayerId) (v : Int) :
    (setPlayerScore g p v).game_over = g.game_over := by
  cases p <;> rfl

/-- C6: the win condition triggers exactly at the threshold: for either
paddle, a score of `POINTS_TO_WIN = 10` sets `game_over` and a score of 9
leaves it unset, both when `check_player_win` runs after a local scoring
event and when a `score_plN` replication message is received. -/
theorem C6_win_threshold_exact (g : GameState) (p : PlayerId)
    (h : g.game_over = false) :
    (check_player_win (setPlayerScore g p 10) p).1.game_over = true
    ∧ (check_player_win (setPlayerScore g p 9) p).1.game_over = false
    ∧ (on_score_update g (mkScoreMsg p 10)).1.game_over = true
    ∧ (on_score_update g (mkScoreMsg p 9)).1.game_over = false := by
  have h10 : POINTS_TO_WIN ≤ playerScore (setPlayerScore g p 10) p := by
    rw [playerScore_setPlayerScore]; decide
  have h9 : ¬ POINTS_TO_WIN ≤ playerScore (setPlayerScore g p 9) p := by
    rw [playerScore_setPlayerScore]; decide
  refine ⟨check_player_win_at_threshold _ p h10, ?_, ?_, ?_⟩
  · rw [check_player_win_below_threshold _ p h9]
    rw [game_over_setPlayerScore]
    exact h
  · cases p
    · exact check_player_win_at_threshold _ PlayerId.player1 h10
    · exact check_player_win_at_threshold _ PlayerId.player2 h10
  · cases p
    · rw [show on_score_update g (mkScoreMsg PlayerId.player1 9)
          = check_player_win (setPlayerScore g PlayerId.player1 9) PlayerId.player1 from rfl,
        check_player_win_below_threshold _ _ h9, game_over_setPlayerScore]
      exact h
    · rw [show on_score_update g (mkScoreMsg PlayerId.player2 9)
          = check_player_win (setPlayerScore g PlayerId.player2 9) PlayerId.player2 from rfl,
        check_player_win_below_threshold _ _ h9, game_over_setPlayerScore]
      exact h

/-- Concrete instance of C6 on the running session `gameEx`. -/
theorem C6_win_threshold_exact_witness :
    gameEx.game_over = false
    ∧ ((check_player_win (setPlayerScore gameEx PlayerId.player1 10) PlayerId.player1).1.game_over
        = true
      ∧ (check_player_win (setPlayerScore gameEx PlayerId.player1 9) PlayerId.player1).1.game_over
        = false
      ∧ (on_score_update gameEx (mkScoreMsg PlayerId.player1 10)).1.game_over = true
      ∧ (on_score_update gameEx (mkScoreMsg PlayerId.player1 9)).1.game_over = false) :=
  ⟨rfl, C6_win_threshold_exact gameEx PlayerId.player1 rfl⟩

/-- The single-key payloads dispatched to `on_game_data_update`. -/
inductive DataMsg where
  | pad_pos (p : Pos)
  | ball_vel (p : Pos)
  | ball_pos (p : Pos)
deriving DecidableEq

/-- `PongGame.on_game_data_update`: opponent paddle position is adopted
unconditionally; `ball_vel` overwrites unconditionally; `ball_pos` is
written only if it differs from the current local ball position. -/
def on_game_data_update (g : GameState) (m : DataMsg) : GameState :=
  match m with
  | DataMsg.pad_pos p => { g with enemy_pos := p }
  | DataMsg.ball_vel v => { g with ball_velocity := v }
  | DataMsg.ball_pos p => if p ≠ g.ball_pos then { g with ball_pos := p } else g

/-- C7: handling a `ball_pos` replication message is idempotent — when the
received position equals the current local one the handler changes
nothing, and receiving the same position twice mutates state at most once
(the second application is the identity). -/
theorem C7_ball_pos_idempotent (g : GameState) (p : Pos) :
    (p = g.ball_pos → on_game_data_update g (DataMsg.ball_pos p) = g)
    ∧ on_game_data_update (on_game_data_update g (DataMsg.ball_pos p)) (DataMsg.ball_pos p)
        = on_game_data_update g (DataMsg.ball_pos p) := by
  constructor
  · intro hp
    simp [on_game_data_update, hp]
  · by_cases hp : p = g.ball_pos
    · simp [on_game_data_update, hp]
    · simp [on_game_data_update, hp]

/-- Concrete instance of C7: receiving `gameEx`'s own ball position is a
no-op, and receiving any position twice equals receiving it once. -/
theorem C7_ball_pos_idempotent_witness :
    on_game_data_update gameEx (DataMsg.ball_pos [400, 300]) = gameEx
    ∧ on_game_data_update (on_game_data_update gameEx (DataMsg.ball_pos [400, 300]))
        (DataMsg.ball_pos [400, 300])
      = on_game_data_update gameEx (DataMsg.ball_pos [400, 300]) :=
  ⟨(C7_ball_pos_idempotent gameEx [400, 300]).1 rfl,
    (C7_ball_pos_idempotent gameEx [400, 300]).2⟩

/-! ### Inbound message handling of `NetworkManager` (C5, C9) -/

/-- The `NetworkManager` state touched by the inbound handlers: identity,
session-type tag, registry/adapter state and whether the multicast
publisher is still announcing. -/
structure NMState where
  me : String
  sd_type : String
  net : NetState
  publisher_active : Bool

/-- A decoded multicast announcement: `msg.get(...)` on each field the
handler reads. -/
structure MCMsg where
  name : Option String
  mtype : Option String
  addr : Option Addr
  enc_key : Option String
  key : Option String
  sign_key : Option String

/-- Observable effects of `_handle_multicast_message`, in order. -/
inductive MCEffect where
  | adapter (c : AdapterCall)
  | send_init
  | publisher_stop
  | dispatch_opponent_found (name : Option String)
deriving DecidableEq

/-- `NetworkManager._handle_multicast_message`: self-echo and foreign
session types are ignored; a record whose `enc_key`-or-`key` is falsy is
logged and dropped; otherwise the opponent is installed, the `init`
handshake message is sent, announcing stops, and `on_opponent_found` is
dispatched.  (A record with no `addr` raises on tuple-unpacking before any
state change; the handler then aborts.) -/
def handle_multicast_message (n : NMState) (msg : MCMsg) : NMState × List MCEffect :=
  if msg.name = some n.me then (n, [])
  else if msg.mtype ≠ some n.sd_type then (n, [])
  else
    match msg.addr with
    | none => (n, [])
    | some server_addr =>
      let enc_key := pyOr msg.enc_key msg.key
      let sign_key := (msg.sign_key.getD "" : String)
      if pyTruthy enc_key = false then (n, [])
      else
        let r := update_opponent_ip n.net server_addr enc_key (some sign_key)
        ({ n with net := r.1, publisher_active := false },
          r.2.map MCEffect.adapter
            ++ [MCEffect.send_init, MCEffect.publisher_stop,
                MCEffect.dispatch_opponent_found msg.name])

/-- The fields of the dict carried under the `init` key. -/
structure InitPayload where
  ip : Option String
  port : Option Nat
  enc_key : Option String
  key : Option String
  sign_key : Option String
  name : Option String
deriving DecidableEq

/-- A decoded JSON value carried under a payload key: either the `init`
dict or some other (opaque) value that the dispatcher forwards without
inspecting. -/
inductive JVal where
  | obj (i : InitPayload)
  | jbool (b : Bool)
  | jnum (v : Int)
  | jstr (s : String)
deriving DecidableEq

/-- Observable effects of `_handle_udp_data`, in order: adapter calls made
while installing an opponent, event dispatches, and unknown-key warnings. -/
inductive UEffect where
  | adapter (c : AdapterCall)
  | dispatch (event : String) (key : String) (v : JVal)
  | dispatch_game_init (v : InitPayload)
  | warn_unknown (key : String)
deriving DecidableEq

/-- `NetworkManager.event_map`: received key → event name. -/
def event_map (key : String) : Option String :=
  if key = "score_pl1" then some "on_score_update"
  else if key = "score_pl2" then some "on_score_update"
  else if key = "pad_pos" then some "on_game_data_update"
  else if key = "ball_vel" then some "on_game_data_update"
  else if key = "ball_pos" then some "on_game_data_update"
  else if key = "pause" then some "on_game_status_update"
  else if key = "win_size" then some "on_game_status_update"
  else if key = "reset_scores" then some "on_game_status_update"
  else if key = "game_close" then some "on_game_status_update"
  else if key = "game_over" then some "on_game_status_update"
  else if key = "sync_ready" then some "on_sync_complete"
  else if key = "sync_ack" then some "on_sync_complete"
  else none

/-- `NetworkManager._handle_udp_data` after JSON decoding: iterate over the
payload's key/value pairs in order.  An `init` key installs the sender as
opponent (only when its `enc_key`-or-`key` is truthy), dispatches
`on_game_init`, and `return`s — aborting the iteration, so later keys are
never dispatched.  Every other key is dispatched through `event_map`, or
logged as unknown.  (A non-dict `init` value raises before any state
change, likewise aborting the iteration.) -/
def handle_udp_data (n : NMState) (sender : Addr) :
    List (String × JVal) → NMState × List UEffect
  | [] => (n, [])
  | (key, v) :: rest =>
    if key = "init" then
      match v with
      | JVal.obj ival =>
        let client_addr : Addr := (ival.ip.getD sender.1, ival.port.getD sender.2)
        let enc_key := pyOr ival.enc_key ival.key
        let sign_key := (ival.sign_key.getD "" : String)
        if pyTruthy enc_key = true then
          let r := update_opponent_ip n.net client_addr enc_key (some sign_key)
          ({ n with net := r.1 },
            r.2.map UEffect.adapter ++ [UEffect.dispatch_game_init ival])
        else (n, [UEffect.dispatch_game_init ival])
      | _ => (n, [])
    else
      match event_map key with
      | some e =>
        let r := handle_udp_data n sender rest
        (r.1, UEffect.dispatch e key v :: r.2)
      | none =>
        let r := handle_udp_data n sender rest
        (r.1, UEffect.warn_unknown key :: r.2)

/-- A fresh `NetworkManager` still announcing, with an empty registry. -/
def nmEx : NMState :=
  { me := "Dave_4242", sd_type := "pong", net := netEx0, publisher_active := true }

/-- A concrete datagram sender address. -/
def senderEx : Addr := ("10.0.0.9", 7000)

/-- An `init` payload carrying no encryption key at all. -/
def initNoKey : InitPayload :=
  { ip := none, port := none, enc_key := none, key := none, sign_key := none,
    name := some "mallory" }

/-- A well-formed multicast announcement (right type, foreign name) whose
encryption key is missing. -/
def mcNoKey : MCMsg :=
  { name := some "bob", mtype := some "pong", addr := some ("10.0.0.2", 1234),
    enc_key := none, key := none, sign_key := none }

/-- Counterexample to C5 as stated: an `init` message lacking an
encryption key is NOT dropped — `_handle_udp_data` still dispatches
`on_game_init` (which proceeds with `init_game_connection`), so a
handshake is initiated. -/
theorem C5_counterexample :
    (handle_udp_data nmEx senderEx [("init", JVal.obj initNoKey)]).2
        = [UEffect.dispatch_game_init initNoKey]
    ∧ [UEffect.dispatch_game_init initNoKey] ≠ ([] : List UEffect) := by
  exact ⟨rfl, by decide⟩

/-- C5 amended: a multicast announcement whose encryption key is falsy is
dropped with no state change and no effect; an `init` message whose
encryption key is falsy does not install the opponent (no adapter call, no
registry change) but still dispatches the `on_game_init` event. -/
theorem C5_missing_key_handling (n : NMState) (msg : MCMsg) (sender : Addr)
    (ival : InitPayload)
    (hmc : pyTruthy (pyOr msg.enc_key msg.key) = false)
    (hin : pyTruthy (pyOr ival.enc_key ival.key) = false) :
    handle_multicast_message n msg = (n, [])
    ∧ handle_udp_data n sender [("init", JVal.obj ival)]
        = (n, [UEffect.dispatch_game_init ival]) := by
  constructor
  · unfold handle_multicast_message
    split
    · rfl
    · split
      · rfl
      · split
        · rfl
        · dsimp only
          rw [hmc]
          simp
  · unfold handle_udp_data
    dsimp only
    rw [if_pos rfl, hin]
    simp

/-- Concrete instance of the amended C5 at key-less records. -/
theorem C5_missing_key_handling_witness :
    (pyTruthy (pyOr mcNoKey.enc_key mcNoKey.key) = false
      ∧ pyTruthy (pyOr initNoKey.enc_key initNoKey.key) = false)
    ∧ (handle_multicast_message nmEx mcNoKey = (nmEx, [])
      ∧ handle_udp_data nmEx senderEx [("init", JVal.obj initNoKey)]
          = (nmEx, [UEffect.dispatch_game_init initNoKey])) :=
  ⟨⟨rfl, rfl⟩, C5_missing_key_handling nmEx mcNoKey senderEx initNoKey rfl rfl⟩

/-- C9 amended: for a payload that contains no `init` key, every entry is
processed independently in order — the state is untouched and the effect
list is exactly one dispatch per recognized key and one unknown-key
warning per unrecognized key. -/
theorem C9_keys_dispatched_independently (n : NMState) (sender : Addr)
    (payload : List (String × JVal))
    (hini : "init" ∉ payload.map Prod.fst) :
    handle_udp_data n sender payload
      = (n, payload.map fun kv =>
          match event_map kv.1 with
          | some e => UEffect.dispatch e kv.1 kv.2
          | none => UEffect.warn_unknown kv.1) := by
  induction payload with
  | nil => rfl
  | cons kv rest ih =>
    obtain ⟨key, v⟩ := kv
    have hk : ¬ key = "init" := by
      intro h
      exact hini (by simp [h])
    have hrest : "init" ∉ rest.map Prod.fst := by
      intro h
      exact hini (List.mem_cons_of_mem _ h)
    unfold handle_udp_data
    rw [if_neg hk]
    cases he : event_map key with
    | some e =>
      rw [List.map_cons, he]
      dsimp only
      rw [ih hrest]
    | none =>
      rw [List.map_cons, he]
      dsimp only
      rw [ih hrest]

/-- An `init` payload that does carry keys. -/
def initWithKeys : InitPayload :=
  { ip := some "10.0.0.9", port := some 7000, enc_key := some "enc-material",
    key := none, sign_key := some "sign-material", name := some "bob" }

/-- Counterexample to C9 as stated: in a payload bundling `init` with the
recognized key `pause`, the `init` branch `return`s after dispatching
`on_game_init`, so the `pause` key is never dispatched at all. -/
theorem C9_counterexample :
    event_map "pause" = some "on_game_status_update"
    ∧ (handle_udp_data nmEx senderEx
        [("init", JVal.obj initWithKeys), ("pause", JVal.jbool true)]).2
      = [UEffect.adapter
            (AdapterCall.updatePeerKeys ("10.0.0.9", 7000) "enc-material" "sign-material"),
          UEffect.adapter (AdapterCall.addPeer ("10.0.0.9", 7000)),
          UEffect.dispatch_game_init initWithKeys]
    ∧ UEffect.dispatch "on_game_status_update" "pause" (JVal.jbool true)
        ∉ (handle_udp_data nmEx senderEx
            [("init", JVal.obj initWithKeys), ("pause", JVal.jbool true)]).2 := by
  refine ⟨rfl, rfl, ?_⟩
  intro hmem
  rw [show (handle_udp_data nmEx senderEx
      [("init", JVal.obj initWithKeys), ("pause", JVal.jbool true)]).2
    = [UEffect.adapter
          (AdapterCall.updatePeerKeys ("10.0.0.9", 7000) "enc-material" "sign-material"),
        UEffect.adapter (AdapterCall.addPeer ("10.0.0.9", 7000)),
        UEffect.dispatch_game_init initWithKeys] from rfl] at hmem
  simp at hmem

/-- An init-free payload bundling two recognized keys and one unknown key. -/
def payloadEx : List (String × JVal) :=
  [("pause", JVal.jbool true), ("score_pl1", JVal.jnum 3), ("mystery", JVal.jstr "x")]

/-- Concrete instance of the amended C9 on a bundled init-free payload. -/
theorem C9_keys_dispatched_independently_witness :
    ("init" ∉ payloadEx.map Prod.fst)
    ∧ handle_udp_data nmEx senderEx payloadEx
      = (nmEx, payloadEx.map fun kv =>
          match event_map kv.1 with
          | some e => UEffect.dispatch e kv.1 kv.2
          | none => UEffect.warn_unknown kv.1) :=
  ⟨by decide, C9_keys_dispatched_independently nmEx senderEx payloadEx (by decide)⟩

end Pong
